import Mathlib

/-!
Shallow embedding of `src/xmp_timedatestamp.py`.

The program is one function, `prepend_date_to_filename`, which resolves an
XMP sidecar path, reads and parses it as XML, extracts the
`photoshop:DateCreated` field, sanitizes it, and renames the target file to
`<sanitized>_<original name>` in the same directory (or only reports the
rename in dry-run mode).  Every failure is re-raised as one wrapped
`RuntimeError` naming the original target path.

Modelling decisions:
* Filesystem paths (`pathlib.Path`) are lists of components; `name`,
  `parent`, `stem` and the `/` operator mirror `pathlib` semantics (`stem`
  follows CPython: strip the part after the last dot only when that dot is
  neither the first nor the last character of the name).
* The filesystem is a partial map from paths to file data; `Path.exists`
  and `open/read` become one lookup, `Path.rename` moves the entry and
  fails (FileNotFoundError) when the source is absent, as POSIX rename does.
* File contents are either well-formed XML (already as an element tree) or
  raw non-XML text; `xml.etree.ElementTree.fromstring` succeeds exactly on
  the former.  `root.find(".//photoshop:DateCreated", ns)` is the first
  strict descendant, in document order, with that namespace and tag.
* `print` is modelled by returning the list of emitted lines.
-/

/-- True exactly on the characters of the regex character class
`[A-Za-z0-9_-]` used at line 46 of the source. -/
def isAllowedChar (c : Char) : Bool :=
  ('A' ≤ c && c ≤ 'Z') || ('a' ≤ c && c ≤ 'z') || ('0' ≤ c && c ≤ '9') ||
    c = '_' || c = '-'

/-- Action of `re.sub` with pattern `[^A-Za-z0-9_-]` and replacement `_` on
one character. -/
def sanitizeChar (c : Char) : Char :=
  if isAllowedChar c then c else '_'

/-- The sanitization step of source line 46: every character outside the
allowed class becomes exactly one underscore. -/
def sanitize (s : String) : String :=
  String.mk (s.data.map sanitizeChar)

/-- Index of the last occurrence of a dot in a character list
(`str.rfind(".")` restricted to that pattern), used by `Path.stem`. -/
def rfindDotIdx : List Char → Option Nat
  | [] => none
  | c :: cs =>
    match rfindDotIdx cs with
    | some j => some (j + 1)
    | none => if c = '.' then some 0 else none

/-- The CPython suffix rule: the stem drops the portion starting at the last
dot only when that dot is at an index `i` with `0 < i < len - 1`. -/
def stemOfName (n : String) : String :=
  match rfindDotIdx n.data with
  | none => n
  | some i =>
    if 0 < i ∧ i < n.data.length - 1 then String.mk (n.data.take i) else n

/-- A filesystem path, as its list of components. -/
structure FsPath where
  components : List String
deriving DecidableEq

/-- Final component of the path (`Path.name`; empty for the root path). -/
def FsPath.name (p : FsPath) : String :=
  p.components.getLastD ""

/-- Path without its final component (`Path.parent`). -/
def FsPath.parent (p : FsPath) : FsPath :=
  ⟨p.components.dropLast⟩

/-- The `/` operator of `pathlib`: append one component. -/
def FsPath.join (p : FsPath) (s : String) : FsPath :=
  ⟨p.components ++ [s]⟩

/-- Final component without its extension (`Path.stem`). -/
def FsPath.stem (p : FsPath) : String :=
  stemOfName p.name

/-- Displayed form of a path (`str(Path)` with posix separators). -/
def pathToString (p : FsPath) : String :=
  String.intercalate "/" p.components

/-- Namespace URI bound to the `photoshop` prefix at source line 39. -/
def photoshopNS : String := "http://ns.adobe.com/photoshop/1.0/"

/-- An XML element as `xml.etree.ElementTree` presents it: a namespaced
tag, optional text content, and the list of child elements. -/
inductive XmlElem : Type where
  | elem (ns : String) (tag : String) (text : Option String)
      (children : List XmlElem)

/-- Namespace URI of an element. -/
def XmlElem.ns : XmlElem → String
  | .elem n _ _ _ => n

/-- Local tag of an element. -/
def XmlElem.tag : XmlElem → String
  | .elem _ t _ _ => t

/-- Text content of an element (`Element.text`, `None` when absent). -/
def XmlElem.text : XmlElem → Option String
  | .elem _ _ t _ => t

/-- Child elements of an element. -/
def XmlElem.children : XmlElem → List XmlElem
  | .elem _ _ _ cs => cs

/-- First element, in document order, among the elements of the list and
all their descendants, with the given namespace and tag. -/
def findInForest (ns tag : String) : List XmlElem → Option XmlElem
  | [] => none
  | XmlElem.elem n t txt cs :: rest =>
    if n = ns ∧ t = tag then some (XmlElem.elem n t txt cs)
    else
      match findInForest ns tag cs with
      | some r => some r
      | none => findInForest ns tag rest

/-- The lookup `root.find(".//photoshop:DateCreated", namespace)` of source
line 40: first matching strict descendant of the root, in document order
(the `.//` path never matches the root itself). -/
def findDateCreated (root : XmlElem) : Option XmlElem :=
  findInForest photoshopNS "DateCreated" root.children

/-- Content of one file: either well-formed XML, kept as its parsed element
tree, or raw text that is not well-formed XML. -/
inductive FileData : Type where
  | xmlFile (root : XmlElem)
  | rawFile (content : String)

/-- The filesystem visible to the script: a partial map from paths to file
contents. -/
def FileSystem : Type := FsPath → Option FileData

/-- The read-and-parse step of source lines 34-38: `ET.fromstring` succeeds
exactly on well-formed XML and raises `ParseError` otherwise. -/
def fromstring : FileData → Except String XmlElem
  | .xmlFile root => .ok root
  | .rawFile _ => .error "not well-formed XML"

/-- The rename step `file_path.rename(new_file_path)` of source line 56:
fails (FileNotFoundError) when the source path is absent, otherwise moves
the entry to the destination, replacing whatever was there. -/
def fsRename (fs : FileSystem) (old new : FsPath) : Option FileSystem :=
  match fs old with
  | none => none
  | some d =>
    some (fun p => if p = new then some d else if p = old then none else fs p)

/-- The exceptions the body of `prepend_date_to_filename` can raise before
the final wrapping: FileNotFoundError (missing metadata file at line 32, or
a missing rename source at line 56), `ET.ParseError` (line 38), and
ValueError (line 43). -/
inductive PyErr : Type where
  | fileNotFound (msg : String)
  | parseError (msg : String)
  | valueError (msg : String)
deriving DecidableEq

/-- Message string carried by an unwrapped exception (`str(e)`). -/
def PyErr.message : PyErr → String
  | .fileNotFound m => m
  | .parseError m => m
  | .valueError m => m

/-- A single-quote character, written by code point to keep it out of
string literals. -/
def singleQuote : String := String.singleton (Char.ofNat 39)

/-- Message of the wrapping RuntimeError of source line 61:
`Error processing file <file_path>: <e>`, with the path in
single quotes. -/
def wrapMsg (file_path : FsPath) (e : PyErr) : String :=
  "Error processing file " ++ singleQuote ++ pathToString file_path ++ singleQuote ++ ": " ++
    e.message

/-- The RuntimeError that escapes the function: its message, plus the
underlying exception (Python keeps it as the implicit exception context of
the re-raise). -/
structure RuntimeErr where
  cause : PyErr
  msg : String
deriving DecidableEq

/-- Wrap an exception as source line 61 does. -/
def wrap (file_path : FsPath) (e : PyErr) : RuntimeErr :=
  ⟨e, wrapMsg file_path e⟩

/-- Message of the FileNotFoundError raised at source line 32. -/
def xmpNotFoundMsg (xmp_file_path : FsPath) : String :=
  "XMP metadata file not found: " ++ pathToString xmp_file_path

/-- Message of the ValueError raised at source line 43. -/
def dateCreatedMissingMsg : String :=
  "DateCreated attribute not found in the XMP metadata."

/-- Message of the FileNotFoundError the OS raises when the rename source
is absent. -/
def renameNotFoundMsg (old new : FsPath) : String :=
  "[Errno 2] No such file or directory: " ++ singleQuote ++ pathToString old ++ singleQuote ++
    " -> " ++ singleQuote ++ pathToString new ++ singleQuote

/-- Line printed at source line 53 in dry-run mode:
`[WHATIF] Would rename <old> to <new>`, with both paths in
single quotes. -/
def whatifLine (old new : FsPath) : String :=
  "[WHATIF] Would rename " ++ singleQuote ++ pathToString old ++ singleQuote ++ " to " ++ singleQuote ++
    pathToString new ++ singleQuote

/-- Line printed by the module-level code at source line 72:
`File renamed to: <path>`. -/
def renamedToLine (p : FsPath) : String :=
  "File renamed to: " ++ pathToString p

/-- Filesystem and emitted standard output after a call. -/
structure RunState where
  fs : FileSystem
  out : List String

/-- Source lines 24-28: the metadata file path is
`metadata_dir / (stem + ".xmp")` when a metadata directory is given and the
target path itself otherwise. -/
def resolveXmpPath (file_path : FsPath) (metadata_dir : Option FsPath) :
    FsPath :=
  match metadata_dir with
  | some d => d.join (file_path.stem ++ ".xmp")
  | none => file_path

/-- Source lines 31-43: existence check and read of the metadata file, XML
parse, `DateCreated` lookup, and the `None`-or-empty-text check; yields the
raw date text or the first exception raised. -/
def extractDate (fs : FileSystem) (xmp_file_path : FsPath) :
    Except PyErr String :=
  match fs xmp_file_path with
  | none => .error (.fileNotFound (xmpNotFoundMsg xmp_file_path))
  | some data =>
    match fromstring data with
    | .error m => .error (.parseError m)
    | .ok root =>
      match findDateCreated root with
      | none => .error (.valueError dateCreatedMissingMsg)
      | some date_created =>
        match date_created.text with
        | none => .error (.valueError dateCreatedMissingMsg)
        | some t =>
          if t = "" then .error (.valueError dateCreatedMissingMsg)
          else .ok t

/-- Source lines 49-50: the computed destination,
`file_path.parent / (sanitize date + "_" + file_path.name)`. -/
def newPathFor (file_path : FsPath) (dateText : String) : FsPath :=
  file_path.parent.join (sanitize dateText ++ "_" ++ file_path.name)

/-- The whole of `prepend_date_to_filename` (source lines 5-61) on an
explicit filesystem: returns the final filesystem with the lines printed by
the function, and either the new path or the wrapped RuntimeError. -/
def prepend_date_to_filename (fs : FileSystem) (file_path : FsPath)
    (metadata_dir : Option FsPath) (whatif : Bool) :
    RunState × Except RuntimeErr FsPath :=
  let xmp_file_path := resolveXmpPath file_path metadata_dir
  match extractDate fs xmp_file_path with
  | .error e => (⟨fs, []⟩, .error (wrap file_path e))
  | .ok dateText =>
    let new_file_path := newPathFor file_path dateText
    if whatif then
      (⟨fs, [whatifLine file_path new_file_path]⟩, .ok new_file_path)
    else
      match fsRename fs file_path new_file_path with
      | none =>
        (⟨fs, []⟩,
          .error (wrap file_path
            (.fileNotFound (renameNotFoundMsg file_path new_file_path))))
      | some fs2 => (⟨fs2, []⟩, .ok new_file_path)

/-- The module-level driver of source lines 69-72: call the function and,
when it returns, print `File renamed to: <path>`; an escaping RuntimeError
ends the run before that print. -/
def moduleMain (fs : FileSystem) (file_path : FsPath)
    (metadata_dir : Option FsPath) (whatif : Bool) :
    RunState × Except RuntimeErr FsPath :=
  match prepend_date_to_filename fs file_path metadata_dir whatif with
  | (st, .ok p) => (⟨st.fs, st.out ++ [renamedToLine p]⟩, .ok p)
  | (st, .error e) => (st, .error e)

/-- A sidecar document in the shape the script expects: an `xmpmeta` root
with one `photoshop:DateCreated` descendant holding `2024-01-05`. -/
def exXml : XmlElem :=
  .elem "adobe:ns:meta/" "xmpmeta" none
    [ .elem photoshopNS "DateCreated" (some "2024-01-05") [] ]

/-- A concrete target file, `pics/IMG_1.png`. -/
def exFile : FsPath := ⟨["pics", "IMG_1.png"]⟩

/-- A concrete metadata directory, `meta`. -/
def exMetaDir : FsPath := ⟨["meta"]⟩

/-- A concrete filesystem: the sidecar `meta/IMG_1.xmp` holds `exXml` and
the target `pics/IMG_1.png` holds raw image bytes. -/
def exFs : FileSystem := fun p =>
  if p = FsPath.mk ["meta", "IMG_1.xmp"] then some (.xmlFile exXml)
  else if p = exFile then some (.rawFile "png-bytes") else none

/-- An empty filesystem, for exercising the missing-metadata failure. -/
def emptyFs : FileSystem := fun _ => none

/-- A sidecar document with no `photoshop:DateCreated` element. -/
def exXmlNoDate : XmlElem := .elem "adobe:ns:meta/" "xmpmeta" none []

/-- A filesystem whose sidecar lacks the `DateCreated` element. -/
def exFsNoDate : FileSystem := fun p =>
  if p = FsPath.mk ["meta", "IMG_1.xmp"] then some (.xmlFile exXmlNoDate)
  else if p = exFile then some (.rawFile "png-bytes") else none

theorem sanitizeChar_idem (c : Char) :
    sanitizeChar (sanitizeChar c) = sanitizeChar c := by
  unfold sanitizeChar
  cases hc : isAllowedChar c with
  | true => simp [hc]
  | false => simp [hc]

theorem sanitizeChar_ne_dot (c : Char) : sanitizeChar c ≠ '.' := by
  unfold sanitizeChar
  cases hc : isAllowedChar c with
  | true =>
    intro h
    subst h
    exact absurd hc (by decide)
  | false => simp

theorem sanitize_data (s : String) :
    (sanitize s).data = s.data.map sanitizeChar := rfl

theorem sanitize_length (s : String) : (sanitize s).length = s.length := by
  show (s.data.map sanitizeChar).length = s.data.length
  exact List.length_map s.data sanitizeChar

theorem sanitize_no_dot (s : String) :
    ∀ c ∈ (sanitize s).data, c ≠ '.' := by
  intro c hc
  rw [sanitize_data] at hc
  obtain ⟨a, _, ha⟩ := List.mem_map.mp hc
  exact ha ▸ sanitizeChar_ne_dot a

/-- C1: sanitization is a one-to-one, order- and length-preserving
character map: allowed characters (`A-Z`, `a-z`, `0-9`, underscore, hyphen)
are unchanged, every other character becomes exactly one underscore, and
the input `2024:01:05 10:30` yields `2024_01_05_10_30`. -/
theorem C1_sanitize_character_map :
    (∀ s : String, (sanitize s).data = s.data.map sanitizeChar) ∧
    (∀ c : Char, isAllowedChar c = true → sanitizeChar c = c) ∧
    (∀ c : Char, isAllowedChar c = false → sanitizeChar c = '_') ∧
    (∀ s : String, (sanitize s).length = s.length) ∧
    sanitize "2024:01:05 10:30" = "2024_01_05_10_30" := by
  refine ⟨sanitize_data, ?_, ?_, sanitize_length, by decide⟩
  · intro c hc
    simp [sanitizeChar, hc]
  · intro c hc
    simp [sanitizeChar, hc]

/-- Witness for C1 at concrete characters: the disallowed colon maps to an
underscore and the allowed letter `A` is unchanged. -/
theorem C1_witness : sanitizeChar ':' = '_' ∧ sanitizeChar 'A' = 'A' :=
  ⟨C1_sanitize_character_map.2.2.1 ':' (by decide),
   C1_sanitize_character_map.2.1 'A' (by decide)⟩

theorem prepend_run (fs : FileSystem) (fp : FsPath) (md : Option FsPath)
    (w : Bool) :
    (∃ c, extractDate fs (resolveXmpPath fp md) = .error c ∧
      prepend_date_to_filename fs fp md w = (⟨fs, []⟩, .error (wrap fp c))) ∨
    (∃ t, extractDate fs (resolveXmpPath fp md) = .ok t ∧
      ((w = true ∧
        prepend_date_to_filename fs fp md w =
          (⟨fs, [whatifLine fp (newPathFor fp t)]⟩, .ok (newPathFor fp t))) ∨
       (w = false ∧ fsRename fs fp (newPathFor fp t) = none ∧
        prepend_date_to_filename fs fp md w =
          (⟨fs, []⟩, .error (wrap fp (.fileNotFound
            (renameNotFoundMsg fp (newPathFor fp t)))))) ∨
       (w = false ∧ ∃ fs2, fsRename fs fp (newPathFor fp t) = some fs2 ∧
        prepend_date_to_filename fs fp md w =
          (⟨fs2, []⟩, .ok (newPathFor fp t))))) := by
  unfold prepend_date_to_filename
  cases h : extractDate fs (resolveXmpPath fp md) with
  | error c => exact Or.inl ⟨c, rfl, by simp [h]⟩
  | ok t =>
    right
    refine ⟨t, rfl, ?_⟩
    cases w with
    | true => exact Or.inl ⟨rfl, by simp [h]⟩
    | false =>
      cases hr : fsRename fs fp (newPathFor fp t) with
      | none => exact Or.inr (Or.inl ⟨rfl, rfl, by simp [h, hr]⟩)
      | some fs2 => exact Or.inr (Or.inr ⟨rfl, fs2, rfl, by simp [h, hr]⟩)

theorem extractDate_congr {fs1 fs2 : FileSystem} (xmp : FsPath)
    (h : fs1 xmp = fs2 xmp) : extractDate fs1 xmp = extractDate fs2 xmp := by
  unfold extractDate
  rw [h]

theorem extractDate_of_absent {fs : FileSystem} {xmp : FsPath}
    (h : fs xmp = none) :
    extractDate fs xmp = .error (.fileNotFound (xmpNotFoundMsg xmp)) := by
  unfold extractDate
  rw [h]

theorem extractDate_ok_ne_empty {fs : FileSystem} {xmp : FsPath}
    {t : String} (h : extractDate fs xmp = .ok t) : t ≠ "" := by
  unfold extractDate at h
  split at h
  · exact absurd h (by simp)
  · split at h
    · exact absurd h (by simp)
    · split at h
      · exact absurd h (by simp)
      · split at h
        · exact absurd h (by simp)
        · split at h
          · exact absurd h (by simp)
          · rename_i h0
            injection h with h
            exact h ▸ h0

theorem newPathFor_components (fp : FsPath) (t : String) :
    (newPathFor fp t).components =
      fp.components.dropLast ++ [sanitize t ++ "_" ++ fp.name] := rfl

theorem string_append_length (a b : String) :
    (a ++ b).length = a.length + b.length := by
  show (a.data ++ b.data).length = a.data.length + b.data.length
  exact List.length_append a.data b.data

theorem newPathFor_ne_self (fp : FsPath) (t : String) :
    newPathFor fp t ≠ fp := by
  intro h
  have hc : fp.components.dropLast ++ [sanitize t ++ "_" ++ fp.name] =
      fp.components := congrArg FsPath.components h
  have hlast : fp.components.getLast? = some (sanitize t ++ "_" ++ fp.name) := by
    rw [← hc]
    exact List.getLast?_concat _
  have hname : fp.name = sanitize t ++ "_" ++ fp.name := by
    show fp.components.getLastD "" = _
    rw [List.getLastD_eq_getLast?, hlast]
    rfl
  have hlen := congrArg String.length hname
  rw [string_append_length, string_append_length] at hlen
  have h1 : ("_" : String).length = 1 := rfl
  omega

theorem rfindDotIdx_some_drop {l : List Char} {i : Nat}
    (h : rfindDotIdx l = some i) :
    i < l.length ∧ l.drop i = '.' :: l.drop (i + 1) := by
  induction l generalizing i with
  | nil => exact absurd h (by simp [rfindDotIdx])
  | cons c cs ih =>
    unfold rfindDotIdx at h
    split at h
    · rename_i j hj
      injection h with h
      obtain ⟨h1, h2⟩ := ih hj
      subst h
      refine ⟨by simpa using Nat.succ_lt_succ h1, ?_⟩
      simpa using h2
    · rename_i hj
      split at h
      · rename_i hc
        injection h with h
        subst h
        simp [hc]
      · exact absurd h (by simp)

theorem no_dot_prefix_contra {sd nd : List Char} (hsd : ('.' : Char) ∉ sd)
    (h : sd ++ '_' :: nd = nd ++ ['.', 'x', 'm', 'p']) : False := by
  have hc := congrArg (List.count '.') h
  simp [List.count_append, List.count_cons,
    List.count_eq_zero.mpr hsd] at hc

/-- The computed destination name `sanitize t ++ "_" ++ n` can never equal
the sidecar name `stemOfName n ++ ".xmp"`: the sanitized token contains no
dot, so the two sides disagree on where dots can sit. -/
theorem newName_ne_sidecarName (t n : String) (ht : t ≠ "") :
    sanitize t ++ "_" ++ n ≠ stemOfName n ++ ".xmp" := by
  intro h
  have hd : (sanitize t).data ++ '_' :: n.data =
      (stemOfName n).data ++ ['.', 'x', 'm', 'p'] := by
    have h0 := congrArg String.data h
    simpa using h0
  have hnodot : ('.' : Char) ∉ (sanitize t).data := by
    intro hm
    exact sanitize_no_dot t '.' hm rfl
  have hsdlen : 0 < (sanitize t).data.length := by
    have hne : t.data ≠ [] := by
      intro hnil
      apply ht
      cases t
      simp at hnil
      rw [hnil]
    have : (sanitize t).data.length = t.data.length := by
      rw [sanitize_data]
      exact List.length_map t.data sanitizeChar
    rw [this]
    exact List.length_pos.mpr hne
  cases hfind : rfindDotIdx n.data with
  | none =>
    have hstem : stemOfName n = n := by
      unfold stemOfName
      rw [hfind]
    rw [hstem] at hd
    exact no_dot_prefix_contra hnodot hd
  | some i =>
    by_cases hcond : 0 < i ∧ i < n.data.length - 1
    · have hstem : (stemOfName n).data = n.data.take i := by
        simp only [stemOfName, hfind]
        rw [if_pos hcond]
      rw [hstem] at hd
      obtain ⟨hi, hdropdot⟩ := rfindDotIdx_some_drop hfind
      have htake : (n.data.take i).length = i := by
        rw [List.length_take]
        omega
      have hlen := congrArg List.length hd
      simp [List.length_append, htake] at hlen
      have hds : (sanitize t).data.length = (sanitize t).length := rfl
      have hdn : n.data.length = n.length := rfl
      have hsd1 : (sanitize t).data.length = 1 := by omega
      obtain ⟨a, ha⟩ := List.length_eq_one.mp hsd1
      rw [ha] at hd
      have hdd := congrArg (List.drop (i + 2)) hd
      have h1 : List.drop (i + 2) ([a] ++ '_' :: n.data) =
          List.drop i n.data := by
        rw [Nat.add_comm i 2, ← List.drop_drop i 2 ([a] ++ '_' :: n.data)]
        rfl
      have h2 : List.drop (i + 2) (n.data.take i ++ ['.', 'x', 'm', 'p']) =
          ['m', 'p'] := by
        rw [← List.drop_drop 2 i (n.data.take i ++ ['.', 'x', 'm', 'p'])]
        rw [List.drop_left' htake]
        rfl
      rw [h1, h2, hdropdot] at hdd
      simp at hdd
    · have hstem : stemOfName n = n := by
        simp only [stemOfName, hfind]
        rw [if_neg hcond]
      rw [hstem] at hd
      exact no_dot_prefix_contra hnodot hd

/-- C10: sanitization is idempotent, because its output only contains
characters of the allowed class, which sanitization fixes. -/
theorem C10_sanitize_idempotent (s : String) :
    sanitize (sanitize s) = sanitize s := by
  apply congrArg String.mk
  show ((s.data.map sanitizeChar).map sanitizeChar) = s.data.map sanitizeChar
  rw [List.map_map]
  exact List.map_congr_left fun c _ => sanitizeChar_idem c




theorem prepend_of_extract_error {fs : FileSystem} {fp : FsPath}
    {md : Option FsPath} {c : PyErr} (w : Bool)
    (hc : extractDate fs (resolveXmpPath fp md) = .error c) :
    prepend_date_to_filename fs fp md w = (⟨fs, []⟩, .error (wrap fp c)) := by
  rcases prepend_run fs fp md w with ⟨c2, hc2, he⟩ | ⟨t, ht, _⟩
  · rw [hc] at hc2
    injection hc2 with hc2
    rw [← hc2] at he
    exact he
  · rw [hc] at ht
    exact absurd ht (by simp)

theorem sidecar_ne_newPath (d fp : FsPath) (t : String) (ht : t ≠ "") :
    FsPath.join d (FsPath.stem fp ++ ".xmp") ≠ newPathFor fp t := by
  intro h
  have hc : d.components ++ [FsPath.stem fp ++ ".xmp"] =
      fp.components.dropLast ++ [sanitize t ++ "_" ++ fp.name] :=
    congrArg FsPath.components h
  have hlast := congrArg List.getLast? hc
  rw [List.getLast?_concat, List.getLast?_concat] at hlast
  injection hlast with hlast
  exact newName_ne_sidecarName t fp.name ht hlast.symm

/-- C2: a successful invocation returns the parent directory of the target
joined with `<sanitized DateCreated>_<original name with extension>`; on
the concrete fixture (`DateCreated = "2024-01-05"`, target `IMG_1.png`)
the computed new name is `2024-01-05_IMG_1.png`. -/
theorem C2_new_path_shape :
    (∀ (fs : FileSystem) (fp : FsPath) (md : Option FsPath) (w : Bool)
        (p : FsPath),
      (prepend_date_to_filename fs fp md w).2 = .ok p →
      ∃ t, extractDate fs (resolveXmpPath fp md) = .ok t ∧
        p = newPathFor fp t ∧
        p.components =
          fp.parent.components ++ [sanitize t ++ "_" ++ fp.name]) ∧
    (prepend_date_to_filename exFs exFile (some exMetaDir) false).2 =
      .ok ⟨["pics", "2024-01-05_IMG_1.png"]⟩ := by
  constructor
  · intro fs fp md w p h
    rcases prepend_run fs fp md w with ⟨c, _, he⟩ |
      ⟨t, htok, ⟨_, he⟩ | ⟨_, _, he⟩ | ⟨_, fs2, _, he⟩⟩
    · rw [he] at h
      exact absurd h (by simp)
    · rw [he] at h
      simp at h
      exact ⟨t, htok, h.symm, by rw [h.symm]; rfl⟩
    · rw [he] at h
      exact absurd h (by simp)
    · rw [he] at h
      simp at h
      exact ⟨t, htok, h.symm, by rw [h.symm]; rfl⟩
  · simp [prepend_date_to_filename, extractDate, resolveXmpPath, exFs,
      exFile, exMetaDir, FsPath.join, FsPath.stem, FsPath.name, stemOfName,
      rfindDotIdx, exXml, fromstring, findDateCreated, findInForest,
      XmlElem.children, XmlElem.text, photoshopNS, newPathFor,
      FsPath.parent, sanitize, sanitizeChar, isAllowedChar, fsRename]

/-- Witness for C2: on the concrete fixture the returned path is the
parent `pics` joined with `2024-01-05_IMG_1.png`. -/
theorem C2_witness :
    ∃ t, extractDate exFs (resolveXmpPath exFile (some exMetaDir)) =
        .ok t ∧
      (⟨["pics", "2024-01-05_IMG_1.png"]⟩ : FsPath) = newPathFor exFile t ∧
      (FsPath.mk ["pics", "2024-01-05_IMG_1.png"]).components =
        exFile.parent.components ++ [sanitize t ++ "_" ++ exFile.name] :=
  C2_new_path_shape.1 exFs exFile (some exMetaDir) false
    ⟨["pics", "2024-01-05_IMG_1.png"]⟩ C2_new_path_shape.2

/-- C3: with the dry-run flag set no filesystem mutation occurs — the final
filesystem is the initial one, so a pre-existing target is still at its
original path and an initially vacant computed new path stays vacant — and
a successful dry-run call returns the computed new path. -/
theorem C3_dry_run_no_mutation :
    ∀ (fs : FileSystem) (fp : FsPath) (md : Option FsPath),
      (prepend_date_to_filename fs fp md true).1.fs = fs ∧
      (∀ p, (prepend_date_to_filename fs fp md true).2 = .ok p →
        (∃ t, extractDate fs (resolveXmpPath fp md) = .ok t ∧
          p = newPathFor fp t) ∧
        (fs fp ≠ none →
          (prepend_date_to_filename fs fp md true).1.fs fp ≠ none) ∧
        (fs p = none →
          (prepend_date_to_filename fs fp md true).1.fs p = none)) := by
  intro fs fp md
  rcases prepend_run fs fp md true with ⟨c, _, he⟩ |
    ⟨t, htok, ⟨_, he⟩ | ⟨hw, _, _⟩ | ⟨hw, _, _, _⟩⟩
  · refine ⟨by rw [he], ?_⟩
    intro p hp
    rw [he] at hp
    exact absurd hp (by simp)
  · refine ⟨by rw [he], ?_⟩
    intro p hp
    rw [he] at hp
    simp at hp
    exact ⟨⟨t, htok, hp.symm⟩, fun h => by rw [he]; exact h,
      fun h => by rw [he]; exact h⟩
  · exact absurd hw (by simp)
  · exact absurd hw (by simp)

/-- Witness for C3 on the concrete fixture: a dry-run leaves the
filesystem untouched, keeps the target in place and creates nothing at the
computed destination. -/
theorem C3_witness :
    (prepend_date_to_filename exFs exFile (some exMetaDir) true).1.fs =
      exFs ∧
    (∃ t, extractDate exFs (resolveXmpPath exFile (some exMetaDir)) =
        .ok t ∧
      (⟨["pics", "2024-01-05_IMG_1.png"]⟩ : FsPath) = newPathFor exFile t) ∧
    (prepend_date_to_filename exFs exFile (some exMetaDir) true).1.fs
      exFile ≠ none ∧
    (prepend_date_to_filename exFs exFile (some exMetaDir) true).1.fs
      ⟨["pics", "2024-01-05_IMG_1.png"]⟩ = none := by
  have h := C3_dry_run_no_mutation exFs exFile (some exMetaDir)
  have h2 := h.2 ⟨["pics", "2024-01-05_IMG_1.png"]⟩
    (by simp [prepend_date_to_filename, extractDate, resolveXmpPath, exFs,
      exFile, exMetaDir, FsPath.join, FsPath.stem, FsPath.name, stemOfName,
      rfindDotIdx, exXml, fromstring, findDateCreated, findInForest,
      XmlElem.children, XmlElem.text, photoshopNS, newPathFor,
      FsPath.parent, sanitize, sanitizeChar, isAllowedChar])
  exact ⟨h.1, h2.1,
    h2.2.1 (by simp [exFs, exFile]),
    h2.2.2 (by simp [exFs, exFile, exXml])⟩

/-- C4: on every failing invocation the final filesystem is the initial
one (so the target file is unchanged at its original path); and whenever
the filesystem does change, the invocation was a successful non-dry-run
whose only mutation is the single final rename. -/
theorem C4_failure_no_mutation :
    (∀ (fs : FileSystem) (fp : FsPath) (md : Option FsPath) (w : Bool)
        (e : RuntimeErr),
      (prepend_date_to_filename fs fp md w).2 = .error e →
      (prepend_date_to_filename fs fp md w).1.fs = fs ∧
      (prepend_date_to_filename fs fp md w).1.fs fp = fs fp) ∧
    (∀ (fs : FileSystem) (fp : FsPath) (md : Option FsPath) (w : Bool),
      (prepend_date_to_filename fs fp md w).1.fs = fs ∨
      (∃ t fs2, extractDate fs (resolveXmpPath fp md) = .ok t ∧
        w = false ∧ fsRename fs fp (newPathFor fp t) = some fs2 ∧
        (prepend_date_to_filename fs fp md w).1.fs = fs2 ∧
        (prepend_date_to_filename fs fp md w).2 =
          .ok (newPathFor fp t))) := by
  constructor
  · intro fs fp md w e h
    rcases prepend_run fs fp md w with ⟨c, _, he⟩ |
      ⟨t, htok, ⟨_, he⟩ | ⟨_, _, he⟩ | ⟨_, fs2, _, he⟩⟩
    · exact ⟨by rw [he], by rw [he]⟩
    · rw [he] at h
      exact absurd h (by simp)
    · exact ⟨by rw [he], by rw [he]⟩
    · rw [he] at h
      exact absurd h (by simp)
  · intro fs fp md w
    rcases prepend_run fs fp md w with ⟨c, _, he⟩ |
      ⟨t, htok, ⟨_, he⟩ | ⟨_, _, he⟩ | ⟨hw, fs2, hr, he⟩⟩
    · exact Or.inl (by rw [he])
    · exact Or.inl (by rw [he])
    · exact Or.inl (by rw [he])
    · exact Or.inr ⟨t, fs2, htok, hw, hr, by rw [he], by rw [he]⟩

/-- Witness for C4: the missing-metadata failure on the empty filesystem
leaves the filesystem untouched. -/
theorem C4_witness :
    (prepend_date_to_filename emptyFs exFile none false).1.fs = emptyFs ∧
    (prepend_date_to_filename emptyFs exFile none false).1.fs exFile =
      emptyFs exFile :=
  C4_failure_no_mutation.1 emptyFs exFile none false
    (wrap exFile (.fileNotFound (xmpNotFoundMsg exFile)))
    (by simp [prepend_date_to_filename, extractDate, resolveXmpPath,
      emptyFs])

/-- C5: every failure escapes as the single wrapped RuntimeError whose
message names the original target path and appends the underlying cause;
a missing metadata file yields the wrapped FileNotFoundError whose cause
message says the XMP metadata file was not found. -/
theorem C5_wrapped_failure_message :
    (∀ (fs : FileSystem) (fp : FsPath) (md : Option FsPath) (w : Bool)
        (e : RuntimeErr),
      (prepend_date_to_filename fs fp md w).2 = .error e →
      e = wrap fp e.cause ∧
      e.msg = "Error processing file " ++ singleQuote ++ pathToString fp ++
        singleQuote ++ ": " ++ e.cause.message) ∧
    (∀ (fs : FileSystem) (fp : FsPath) (md : Option FsPath) (w : Bool),
      fs (resolveXmpPath fp md) = none →
      (prepend_date_to_filename fs fp md w).2 =
        .error (wrap fp
          (.fileNotFound (xmpNotFoundMsg (resolveXmpPath fp md)))) ∧
      xmpNotFoundMsg (resolveXmpPath fp md) =
        "XMP metadata file not found: " ++
          pathToString (resolveXmpPath fp md)) := by
  constructor
  · intro fs fp md w e h
    rcases prepend_run fs fp md w with ⟨c, _, he⟩ |
      ⟨t, htok, ⟨_, he⟩ | ⟨_, _, he⟩ | ⟨_, fs2, _, he⟩⟩
    · rw [he] at h
      simp at h
      rw [← h]
      exact ⟨rfl, rfl⟩
    · rw [he] at h
      exact absurd h (by simp)
    · rw [he] at h
      simp at h
      rw [← h]
      exact ⟨rfl, rfl⟩
    · rw [he] at h
      exact absurd h (by simp)
  · intro fs fp md w habs
    have hc := extractDate_of_absent habs
    rw [prepend_of_extract_error w hc]
    exact ⟨rfl, rfl⟩

/-- Witness for C5: on the empty filesystem the call fails with the wrapped
metadata-not-found error and its message has the documented shape. -/
theorem C5_witness :
    (prepend_date_to_filename emptyFs exFile none false).2 =
      .error (wrap exFile
        (.fileNotFound (xmpNotFoundMsg (resolveXmpPath exFile none)))) ∧
    xmpNotFoundMsg (resolveXmpPath exFile none) =
      "XMP metadata file not found: " ++
        pathToString (resolveXmpPath exFile none) :=
  C5_wrapped_failure_message.2 emptyFs exFile none false (by simp [emptyFs])

theorem extractDate_xml {fs : FileSystem} {xmp : FsPath} {root : XmlElem}
    (hfs : fs xmp = some (.xmlFile root)) :
    extractDate fs xmp =
      (match findDateCreated root with
      | none => .error (.valueError dateCreatedMissingMsg)
      | some date_created =>
        match date_created.text with
        | none => .error (.valueError dateCreatedMissingMsg)
        | some t =>
          if t = "" then .error (.valueError dateCreatedMissingMsg)
          else .ok t) := by
  unfold extractDate
  rw [hfs]
  rfl

/-- C6: with a readable, well-formed metadata file, the call fails with the
wrapped missing-field ValueError exactly when the namespaced `DateCreated`
lookup finds nothing or finds an element with empty or missing text; and in
that case the filesystem (in particular the target file) is unchanged. -/
theorem C6_missing_field_iff :
    ∀ (fs : FileSystem) (fp : FsPath) (md : Option FsPath) (w : Bool)
      (root : XmlElem),
      fs (resolveXmpPath fp md) = some (.xmlFile root) →
      (((prepend_date_to_filename fs fp md w).2 =
          .error (wrap fp (.valueError dateCreatedMissingMsg))) ↔
        (findDateCreated root = none ∨
          ∃ el, findDateCreated root = some el ∧
            (el.text = none ∨ el.text = some ""))) ∧
      ((findDateCreated root = none ∨
          ∃ el, findDateCreated root = some el ∧
            (el.text = none ∨ el.text = some "")) →
        (prepend_date_to_filename fs fp md w).1.fs = fs ∧
        (prepend_date_to_filename fs fp md w).1.fs fp = fs fp) := by
  intro fs fp md w root hfs
  have hx := extractDate_xml hfs
  cases hf : findDateCreated root with
  | none =>
    rw [hf] at hx
    have hp := prepend_of_extract_error w hx
    constructor
    · constructor
      · intro _
        exact Or.inl rfl
      · intro _
        rw [hp]
    · intro _
      rw [hp]
      exact ⟨rfl, rfl⟩
  | some el =>
    rw [hf] at hx
    have hx2 : extractDate fs (resolveXmpPath fp md) =
        (match el.text with
        | none => .error (.valueError dateCreatedMissingMsg)
        | some t =>
          if t = "" then .error (.valueError dateCreatedMissingMsg)
          else .ok t) := hx
    cases htext : el.text with
    | none =>
      rw [htext] at hx2
      have hx3 : extractDate fs (resolveXmpPath fp md) =
          .error (.valueError dateCreatedMissingMsg) := hx2
      have hp := prepend_of_extract_error w hx3
      constructor
      · constructor
        · intro _
          exact Or.inr ⟨el, rfl, Or.inl htext⟩
        · intro _
          rw [hp]
      · intro _
        rw [hp]
        exact ⟨rfl, rfl⟩
    | some t =>
      rw [htext] at hx2
      have hx3 : extractDate fs (resolveXmpPath fp md) =
          (if t = "" then .error (.valueError dateCreatedMissingMsg)
           else .ok t) := hx2
      by_cases h0 : t = ""
      · have hx4 : extractDate fs (resolveXmpPath fp md) =
            .error (.valueError dateCreatedMissingMsg) := by
          rw [hx3, if_pos h0]
        have hp := prepend_of_extract_error w hx4
        constructor
        · constructor
          · intro _
            exact Or.inr ⟨el, rfl, Or.inr (by rw [htext, h0])⟩
          · intro _
            rw [hp]
        · intro _
          rw [hp]
          exact ⟨rfl, rfl⟩
      · have hx4 : extractDate fs (resolveXmpPath fp md) = .ok t := by
          rw [hx3, if_neg h0]
        have hnotmiss : ¬(some el = none ∨
            ∃ el2, some el = some el2 ∧
              (el2.text = none ∨ el2.text = some "")) := by
          rintro (hnone | ⟨el2, hel2, hht⟩)
          · exact absurd hnone (by simp)
          · injection hel2 with hel2
            rw [← hel2, htext] at hht
            rcases hht with h1 | h1
            · exact absurd h1 (by simp)
            · injection h1 with h1
              exact h0 h1
        constructor
        · constructor
          · intro habs
            exfalso
            rcases prepend_run fs fp md w with ⟨c, hc, he⟩ |
              ⟨t2, htok, ⟨_, he⟩ | ⟨_, _, he⟩ | ⟨_, fs2, _, he⟩⟩
            · rw [hx4] at hc
              exact absurd hc (by simp)
            · rw [he] at habs
              exact absurd habs (by simp)
            · rw [he] at habs
              simp [wrap, wrapMsg] at habs
            · rw [he] at habs
              exact absurd habs (by simp)
          · intro hmiss
            exact absurd hmiss hnotmiss
        · intro hmiss
          exact absurd hmiss hnotmiss

/-- Witness for C6: a sidecar without the `DateCreated` element makes the
call fail with the wrapped missing-field error and leaves the filesystem
unchanged. -/
theorem C6_witness :
    ((prepend_date_to_filename exFsNoDate exFile (some exMetaDir)
        false).2 =
      .error (wrap exFile (.valueError dateCreatedMissingMsg))) ∧
    (prepend_date_to_filename exFsNoDate exFile (some exMetaDir)
        false).1.fs = exFsNoDate := by
  have h := C6_missing_field_iff exFsNoDate exFile (some exMetaDir) false
    exXmlNoDate
    (by simp [exFsNoDate, resolveXmpPath, exFile, exMetaDir, FsPath.join,
      FsPath.stem, FsPath.name, stemOfName, rfindDotIdx])
  have hmiss : findDateCreated exXmlNoDate = none := by
    simp [findDateCreated, exXmlNoDate, XmlElem.children, findInForest]
  exact ⟨h.1.mpr (Or.inl hmiss), (h.2 (Or.inl hmiss)).1⟩

/-- C7: the metadata location is `metadata_dir / (stem + ".xmp")` when a
metadata directory is supplied and the target path itself otherwise, and
when no file exists there the call fails with the wrapped
FileNotFoundError for that location. -/
theorem C7_metadata_location :
    (∀ (fp : FsPath) (d : FsPath),
      resolveXmpPath fp (some d) = FsPath.join d (FsPath.stem fp ++ ".xmp")) ∧
    (∀ fp : FsPath, resolveXmpPath fp none = fp) ∧
    (∀ (fs : FileSystem) (fp : FsPath) (md : Option FsPath) (w : Bool),
      fs (resolveXmpPath fp md) = none →
      (prepend_date_to_filename fs fp md w).2 =
        .error (wrap fp
          (.fileNotFound (xmpNotFoundMsg (resolveXmpPath fp md))))) := by
  refine ⟨fun fp d => rfl, fun fp => rfl, ?_⟩
  intro fs fp md w habs
  rw [prepend_of_extract_error w (extractDate_of_absent habs)]

/-- Witness for C7: with the empty filesystem and a metadata directory the
resolved location is `meta/IMG_1.xmp` and the call fails with the wrapped
not-found error. -/
theorem C7_witness :
    (prepend_date_to_filename emptyFs exFile (some exMetaDir) false).2 =
      .error (wrap exFile
        (.fileNotFound
          (xmpNotFoundMsg (resolveXmpPath exFile (some exMetaDir))))) :=
  C7_metadata_location.2.2 emptyFs exFile (some exMetaDir) false
    (by simp [emptyFs])

/-- Counterexample to C9 as stated: on the concrete fixture the non-dry-run
invocation of the operation succeeds yet emits no diagnostic line at all —
in particular not the rename confirmation, which line 72 of the source
prints from module level, outside the function. -/
theorem C9_counterexample :
    (prepend_date_to_filename exFs exFile (some exMetaDir) false).2 =
      .ok ⟨["pics", "2024-01-05_IMG_1.png"]⟩ ∧
    (prepend_date_to_filename exFs exFile (some exMetaDir) false).1.out =
      [] ∧
    (prepend_date_to_filename exFs exFile (some exMetaDir) false).1.out ≠
      [renamedToLine ⟨["pics", "2024-01-05_IMG_1.png"]⟩] := by
  refine ⟨?_, ?_, ?_⟩ <;>
    simp [prepend_date_to_filename, extractDate, resolveXmpPath, exFs,
      exFile, exMetaDir, FsPath.join, FsPath.stem, FsPath.name, stemOfName,
      rfindDotIdx, exXml, fromstring, findDateCreated, findInForest,
      XmlElem.children, XmlElem.text, photoshopNS, newPathFor,
      FsPath.parent, sanitize, sanitizeChar, isAllowedChar, fsRename]

/-- C9 as amended: a successful dry-run invocation of the function emits
exactly the `[WHATIF]` notice, a successful non-dry-run invocation of the
function emits nothing (failures also emit nothing), and the
`File renamed to:` confirmation is the single line printed by the
module-level caller after a successful non-dry-run call. -/
theorem C9_output_lines :
    (∀ (fs : FileSystem) (fp : FsPath) (md : Option FsPath) (p : FsPath),
      (prepend_date_to_filename fs fp md true).2 = .ok p →
      (prepend_date_to_filename fs fp md true).1.out = [whatifLine fp p]) ∧
    (∀ (fs : FileSystem) (fp : FsPath) (md : Option FsPath) (p : FsPath),
      (prepend_date_to_filename fs fp md false).2 = .ok p →
      (prepend_date_to_filename fs fp md false).1.out = []) ∧
    (∀ (fs : FileSystem) (fp : FsPath) (md : Option FsPath) (w : Bool)
        (e : RuntimeErr),
      (prepend_date_to_filename fs fp md w).2 = .error e →
      (prepend_date_to_filename fs fp md w).1.out = []) ∧
    (∀ (fs : FileSystem) (fp : FsPath) (md : Option FsPath) (p : FsPath),
      (moduleMain fs fp md false).2 = .ok p →
      (moduleMain fs fp md false).1.out = [renamedToLine p]) := by
  refine ⟨?_, ?_, ?_, ?_⟩
  · intro fs fp md p h
    rcases prepend_run fs fp md true with ⟨c, _, he⟩ |
      ⟨t, htok, ⟨_, he⟩ | ⟨hw, _, _⟩ | ⟨hw, _, _, _⟩⟩
    · rw [he] at h
      exact absurd h (by simp)
    · rw [he] at h ⊢
      simp at h ⊢
      rw [h]
    · exact absurd hw (by simp)
    · exact absurd hw (by simp)
  · intro fs fp md p h
    rcases prepend_run fs fp md false with ⟨c, _, he⟩ |
      ⟨t, htok, ⟨hw, _⟩ | ⟨_, _, he⟩ | ⟨_, fs2, _, he⟩⟩
    · rw [he] at h
      exact absurd h (by simp)
    · exact absurd hw (by simp)
    · rw [he] at h
      exact absurd h (by simp)
    · rw [he]
  · intro fs fp md w e h
    rcases prepend_run fs fp md w with ⟨c, _, he⟩ |
      ⟨t, htok, ⟨_, he⟩ | ⟨_, _, he⟩ | ⟨_, fs2, _, he⟩⟩
    · rw [he]
    · rw [he] at h
      exact absurd h (by simp)
    · rw [he]
    · rw [he] at h
      exact absurd h (by simp)
  · intro fs fp md p h
    rcases prepend_run fs fp md false with ⟨c, _, he⟩ |
      ⟨t, htok, ⟨hw, _⟩ | ⟨_, _, he⟩ | ⟨_, fs2, _, he⟩⟩
    · simp [moduleMain, he] at h
    · exact absurd hw (by simp)
    · simp [moduleMain, he] at h
    · simp [moduleMain, he] at h ⊢
      rw [h]

/-- Witness for the amended C9: on the concrete fixture the
dry-run call emits exactly the notice and the module-level driver of a
non-dry-run call emits exactly the confirmation. -/
theorem C9_witness :
    (prepend_date_to_filename exFs exFile (some exMetaDir) true).1.out =
      [whatifLine exFile ⟨["pics", "2024-01-05_IMG_1.png"]⟩] ∧
    (moduleMain exFs exFile (some exMetaDir) false).1.out =
      [renamedToLine ⟨["pics", "2024-01-05_IMG_1.png"]⟩] :=
  ⟨C9_output_lines.1 exFs exFile (some exMetaDir)
      ⟨["pics", "2024-01-05_IMG_1.png"]⟩
      (by simp [prepend_date_to_filename, extractDate, resolveXmpPath,
        exFs, exFile, exMetaDir, FsPath.join, FsPath.stem, FsPath.name,
        stemOfName, rfindDotIdx, exXml, fromstring, findDateCreated,
        findInForest, XmlElem.children, XmlElem.text, photoshopNS,
        newPathFor, FsPath.parent, sanitize, sanitizeChar, isAllowedChar]),
   C9_output_lines.2.2.2 exFs exFile (some exMetaDir)
      ⟨["pics", "2024-01-05_IMG_1.png"]⟩
      (by simp [moduleMain, prepend_date_to_filename, extractDate,
        resolveXmpPath, exFs, exFile, exMetaDir, FsPath.join, FsPath.stem,
        FsPath.name, stemOfName, rfindDotIdx, exXml, fromstring,
        findDateCreated, findInForest, XmlElem.children, XmlElem.text,
        photoshopNS, newPathFor, FsPath.parent, sanitize, sanitizeChar,
        isAllowedChar, fsRename])⟩

/-- C8: after a successful non-dry-run invocation the original target path
is gone and the computed new path is occupied, and repeating the same
invocation on the resulting filesystem fails with a wrapped
FileNotFoundError (either the metadata file was the renamed target and is
gone, or the rename source itself is no longer present). -/
theorem C8_not_safely_repeatable :
    ∀ (fs : FileSystem) (fp : FsPath) (md : Option FsPath) (p : FsPath),
      (prepend_date_to_filename fs fp md false).2 = .ok p →
      (prepend_date_to_filename fs fp md false).1.fs fp = none ∧
      (prepend_date_to_filename fs fp md false).1.fs p ≠ none ∧
      ∃ m, (prepend_date_to_filename
          ((prepend_date_to_filename fs fp md false).1.fs) fp md
          false).2 =
        .error (wrap fp (.fileNotFound m)) := by
  intro fs fp md p h
  rcases prepend_run fs fp md false with ⟨c, _, he⟩ |
    ⟨t, htok, ⟨hw, _⟩ | ⟨_, _, he⟩ | ⟨_, fs2, hr, he⟩⟩
  · rw [he] at h
    exact absurd h (by simp)
  · exact absurd hw (by simp)
  · rw [he] at h
    exact absurd h (by simp)
  · rw [he] at h
    simp at h
    unfold fsRename at hr
    cases hfp : fs fp with
    | none =>
      rw [hfp] at hr
      exact absurd hr (by simp)
    | some d =>
      rw [hfp] at hr
      injection hr with hr
      have hfs2 : fs2 = fun q =>
          if q = newPathFor fp t then some d
          else if q = fp then none else fs q := hr.symm
      have hnp_ne_fp : newPathFor fp t ≠ fp := newPathFor_ne_self fp t
      have hfp_none : fs2 fp = none := by
        rw [hfs2]
        show (if fp = newPathFor fp t then some d
          else if fp = fp then none else fs fp) = none
        rw [if_neg (fun hh => hnp_ne_fp (Eq.symm hh)), if_pos rfl]
      have hnp_some : fs2 (newPathFor fp t) = some d := by
        rw [hfs2]
        show (if newPathFor fp t = newPathFor fp t then some d
          else if newPathFor fp t = fp then none
          else fs (newPathFor fp t)) = some d
        rw [if_pos rfl]
      have ht : t ≠ "" := extractDate_ok_ne_empty htok
      have hxmp_ne : resolveXmpPath fp md ≠ newPathFor fp t := by
        cases md with
        | none =>
          intro hh
          exact hnp_ne_fp hh.symm
        | some dir => exact sidecar_ne_newPath dir fp t ht
      rw [he]
      refine ⟨hfp_none, ?_, ?_⟩
      · rw [← h]
        show fs2 (newPathFor fp t) ≠ none
        rw [hnp_some]
        simp
      · show ∃ m, (prepend_date_to_filename fs2 fp md false).2 =
          .error (wrap fp (.fileNotFound m))
        by_cases hxf : resolveXmpPath fp md = fp
        · have habs : fs2 (resolveXmpPath fp md) = none := by
            rw [hxf]
            exact hfp_none
          refine ⟨xmpNotFoundMsg (resolveXmpPath fp md), ?_⟩
          rw [prepend_of_extract_error false (extractDate_of_absent habs)]
        · have hsame : fs2 (resolveXmpPath fp md) =
              fs (resolveXmpPath fp md) := by
            rw [hfs2]
            show (if resolveXmpPath fp md = newPathFor fp t then some d
              else if resolveXmpPath fp md = fp then none
              else fs (resolveXmpPath fp md)) = fs (resolveXmpPath fp md)
            rw [if_neg hxmp_ne, if_neg hxf]
          have htok2 : extractDate fs2 (resolveXmpPath fp md) = .ok t := by
            rw [extractDate_congr (resolveXmpPath fp md) hsame]
            exact htok
          have hr2 : fsRename fs2 fp (newPathFor fp t) = none := by
            unfold fsRename
            rw [hfp_none]
          rcases prepend_run fs2 fp md false with ⟨c2, hc2, _⟩ |
            ⟨t2, htok2b, ⟨hw2, _⟩ | ⟨_, _, he2⟩ | ⟨_, fs3, hr2b, _⟩⟩
          · rw [htok2] at hc2
            exact absurd hc2 (by simp)
          · exact absurd hw2 (by simp)
          · refine ⟨renameNotFoundMsg fp (newPathFor fp t2), ?_⟩
            rw [he2]
          · rw [htok2] at htok2b
            injection htok2b with htok2b
            rw [← htok2b] at hr2b
            rw [hr2] at hr2b
            exact absurd hr2b (by simp)
  
/-- Witness for C8 on the concrete fixture: after the successful rename the
old path is vacant, the new path is occupied, and rerunning the invocation
fails with a wrapped FileNotFoundError. -/
theorem C8_witness :
    (prepend_date_to_filename exFs exFile (some exMetaDir) false).1.fs
      exFile = none ∧
    (prepend_date_to_filename exFs exFile (some exMetaDir) false).1.fs
      ⟨["pics", "2024-01-05_IMG_1.png"]⟩ ≠ none ∧
    ∃ m, (prepend_date_to_filename
        ((prepend_date_to_filename exFs exFile (some exMetaDir)
          false).1.fs) exFile (some exMetaDir) false).2 =
      .error (wrap exFile (.fileNotFound m)) :=
  C8_not_safely_repeatable exFs exFile (some exMetaDir)
    ⟨["pics", "2024-01-05_IMG_1.png"]⟩
    (by simp [prepend_date_to_filename, extractDate, resolveXmpPath, exFs,
      exFile, exMetaDir, FsPath.join, FsPath.stem, FsPath.name, stemOfName,
      rfindDotIdx, exXml, fromstring, findDateCreated, findInForest,
      XmlElem.children, XmlElem.text, photoshopNS, newPathFor,
      FsPath.parent, sanitize, sanitizeChar, isAllowedChar, fsRename])
